import Mathlib

/-!
Verification of the WGAN-GP notebook (src/Week12/WGAN-GP.ipynb).

The notebook trains a Wasserstein GAN with gradient penalty on MNIST.
We embed its real-valued computations shallowly over `ℝ`:

* tensors of shape `(n, k)` become `Fin n → Fin k → ℝ`;
* images of shape `(1, 28, 28)` become `ImgIdx → ℝ` with
  `ImgIdx = Fin 1 × Fin 28 × Fin 28`, and `view`/flatten operations
  become reindexing along the explicit equivalence `imgEquiv`;
* the pre-built framework layers (`nn.Linear`, `nn.LeakyReLU`,
  `nn.BatchNorm1d`, `nn.Tanh`, `nn.Sigmoid`) are given by their
  documented real-number semantics;
* `autograd.grad` of a scalar-valued computation is embedded
  coordinatewise via the one-dimensional derivative `deriv`;
* the pre-built Adam optimizer and the reverse-mode gradients used by
  `backward()` are outside the notebook's own code, so the training
  loop is parameterized over them (`Autodiff`); the loop's own logic
  (loss formulas, update schedule, which parameters each step touches)
  is embedded concretely.
-/

open Finset

/-- Row vector of length `k` (a single sample of a `(n, k)` tensor). -/
abbrev Vec (k : ℕ) := Fin k → ℝ

/-- Index of a pixel in an MNIST image of shape `(1, 28, 28)`. -/
abbrev ImgIdx := Fin 1 × Fin 28 × Fin 28

/-- One image of shape `(1, 28, 28)` as a real-valued pixel map. -/
abbrev Image := ImgIdx → ℝ

/-- Latent dimension: `z_dim = 100` in the notebook. -/
def z_dim : ℕ := 100

/-- Flattened MNIST dimension:
`mnist_dim = train_dataset.train_data.size(1) * train_dataset.train_data.size(2) = 28 * 28`. -/
def mnist_dim : ℕ := 28 * 28

/-- Row-major flattening of a `(1, 28, 28)` image index, as performed by
`image.view(image.size(0), -1)` and inverted by
`view(n, 1, 28, 28)`: pixel `(c, h, w)` maps to `h * 28 + w` (with `c = 0`). -/
def imgEquiv : ImgIdx ≃ Fin (28 * 28) where
  toFun p := ⟨p.2.1.val * 28 + p.2.2.val, by omega⟩
  invFun k := (0, ⟨k.val / 28, by omega⟩, ⟨k.val % 28, by omega⟩)
  left_inv := by
    rintro ⟨c, h, w⟩
    refine Prod.ext ?_ (Prod.ext ?_ ?_) <;> apply Fin.ext <;> simp <;> omega
  right_inv := by
    rintro ⟨k, hk⟩
    apply Fin.ext
    simp
    omega

/-- `torch.mean` of an `n`-element tensor: sum divided by the element count. -/
noncomputable def mean {n : ℕ} (f : Fin n → ℝ) : ℝ := (∑ i, f i) / n

/-- `nn.Linear(i, o)` applied to one sample: `y = W x + b` with weight
matrix `W : o × i` and bias `b : o`. -/
noncomputable def linear {i o : ℕ} (W : Fin o → Fin i → ℝ) (b : Vec o) (v : Vec i) : Vec o :=
  fun r => (∑ c, W r c * v c) + b r

/-- `nn.LeakyReLU(slope)` applied to one scalar:
`x` if `x ≥ 0`, else `slope * x`. -/
noncomputable def leakyReLU (slope x : ℝ) : ℝ := if 0 ≤ x then x else slope * x

/-- `nn.Sigmoid` applied to one scalar: `1 / (1 + exp (-x))`. -/
noncomputable def sigmoid (x : ℝ) : ℝ := 1 / (1 + Real.exp (-x))

/-- `nn.BatchNorm1d(C, eps)` in training mode on a batch `x` of `n`
samples with `C` features: each feature is normalized by the batch mean
and (biased) batch variance, then scaled by `γ` and shifted by `β`. -/
noncomputable def batchNorm {n C : ℕ} (eps : ℝ) (γ β : Vec C) (x : Fin n → Vec C) :
    Fin n → Vec C :=
  let μ : Vec C := fun c => (∑ i, x i c) / n
  let v : Vec C := fun c => (∑ i, (x i c - μ c) ^ 2) / n
  fun i c => (x i c - μ c) / Real.sqrt (v c + eps) * γ c + β c

/-- Parameters of the notebook's `Discriminator(mnist_dim)`:
`Linear(784, 512)`, `Linear(512, 256)`, `Linear(256, 1)`. -/
structure DiscParams where
  V1 : Fin 512 → Fin (28 * 28) → ℝ
  c1 : Vec 512
  V2 : Fin 256 → Fin 512 → ℝ
  c2 : Vec 256
  V3 : Fin 1 → Fin 256 → ℝ
  c3 : Vec 1

namespace Discriminator

/-- `Discriminator.forward` on one sample: flatten the image
(`image.view(image.size(0), -1)`), then apply
`Linear(784,512) → LeakyReLU(0.2) → Linear(512,256) → LeakyReLU(0.2) →
Linear(256,1) → Sigmoid`, matching the notebook's `nn.Sequential`.
The model has no batch-coupled layer, so it acts sample-by-sample. -/
noncomputable def forward (p : DiscParams) (image : Image) : Vec 1 :=
  let img_flat : Vec (28 * 28) := fun j => image (imgEquiv.symm j)
  let h1 : Vec 512 := fun r => leakyReLU 0.2 (linear p.V1 p.c1 img_flat r)
  let h2 : Vec 256 := fun r => leakyReLU 0.2 (linear p.V2 p.c2 h1 r)
  fun o => sigmoid (linear p.V3 p.c3 h2 o)

end Discriminator

/-- The scalar critic score of one sample: the single entry of the
`(n, 1)`-shaped output of `Discriminator.forward`. -/
noncomputable def Dscore (p : DiscParams) (image : Image) : ℝ :=
  Discriminator.forward p image 0

/-- The sigmoid lies strictly between 0 and 1. -/
theorem sigmoid_mem_Ioo (x : ℝ) : 0 < sigmoid x ∧ sigmoid x < 1 := by
  have hexp : 0 < Real.exp (-x) := Real.exp_pos _
  have hden : (0 : ℝ) < 1 + Real.exp (-x) := by linarith
  constructor
  · exact div_pos one_pos hden
  · rw [sigmoid, div_lt_one hden]
    linarith

/-- All-zero discriminator parameters, used as a concrete instance. -/
def zeroDisc : DiscParams where
  V1 := fun _ _ => 0
  c1 := fun _ => 0
  V2 := fun _ _ => 0
  c2 := fun _ => 0
  V3 := fun _ _ => 0
  c3 := fun _ => 0

/-- C5: The notebook's Discriminator ends in `nn.Sigmoid`, so every
per-sample score it produces lies strictly inside `(0, 1)` — for every
parameter setting and every input image — and in particular at the
all-zero parameters every score is exactly `1/2`. This contradicts the
claim (and the WGAN-GP algorithm the notebook documents) that the
critic's real-valued score is not squashed into `(0, 1)`. -/
theorem discriminator_score_in_unit_interval :
    (∀ (p : DiscParams) (image : Image) (o : Fin 1),
        0 < Discriminator.forward p image o ∧ Discriminator.forward p image o < 1) ∧
    (∀ image : Image, Discriminator.forward zeroDisc image 0 = 1 / 2) := by
  constructor
  · intro p image o
    exact sigmoid_mem_Ioo _
  · intro image
    show sigmoid (linear _ _ _ 0) = 1 / 2
    have hlin : linear zeroDisc.V3 zeroDisc.c3
        (fun r => leakyReLU 0.2 (linear zeroDisc.V2 zeroDisc.c2
          (fun r2 => leakyReLU 0.2 (linear zeroDisc.V1 zeroDisc.c1
            (fun j => image (imgEquiv.symm j)) r2)) r)) 0 = 0 := by
      simp [linear, zeroDisc]
    rw [show (fun r => leakyReLU 0.2 (linear zeroDisc.V2 zeroDisc.c2
          (fun r2 => leakyReLU 0.2 (linear zeroDisc.V1 zeroDisc.c1
            (fun j => image (imgEquiv.symm j)) r2)) r)) = fun r =>
        leakyReLU 0.2 (linear zeroDisc.V2 zeroDisc.c2
          (fun r2 => leakyReLU 0.2 (linear zeroDisc.V1 zeroDisc.c1
            (fun j => image (imgEquiv.symm j)) r2)) r) from rfl]
    rw [hlin]
    rw [sigmoid, neg_zero, Real.exp_zero]
    norm_num

/-- `Loss weight for gradient penalty`: `lambda_gp = 10`. -/
noncomputable def lambda_gp : ℝ := 10

/-- Replace the single scalar entry of a batched image tensor at sample
`i`, pixel `idx`, by `t`, leaving every other entry unchanged. -/
def updAt {n : ℕ} (x : Fin n → Image) (i : Fin n) (idx : ImgIdx) (t : ℝ) :
    Fin n → Image :=
  fun k idx' => if k = i ∧ idx' = idx then t else x k idx'

/-- The pre-built `autograd.grad` of a scalar-valued function of a
batched image tensor, embedded coordinatewise: entry `(i, idx)` is the
partial derivative of `f` in that input coordinate. -/
noncomputable def batchGrad {n : ℕ} (f : (Fin n → Image) → ℝ) (x : Fin n → Image) :
    Fin n → Image :=
  fun i idx => deriv (fun t => f (updAt x i idx t)) (x i idx)

/-- The notebook's local `interpolates`: per-sample convex combination
`alpha * real + (1 - alpha) * fake`, with one weight per sample
(`alpha` has shape `(n, 1, 1, 1)` and is broadcast over all pixels). -/
noncomputable def interpolates {n : ℕ} (alpha : Fin n → ℝ)
    (real_samples fake_samples : Fin n → Image) : Fin n → Image :=
  fun i idx => alpha i * real_samples i idx + (1 - alpha i) * fake_samples i idx

/-- `compute_gradient_penalty(D, real_samples, fake_samples)` from the
notebook, with the sampled interpolation weights `alpha` made explicit.
`autograd.grad` is called with `grad_outputs` a `(n, 1)` tensor of
ones, so the differentiated scalar is the sum of the per-sample critic
outputs `∑ k, D (x k)`; the resulting gradient tensor is flattened by
`gradients.view(gradients.size(0), -1)` (the reindexing along
`imgEquiv.symm`), each row's 2-norm is taken, and the mean of the
squared deviations from 1 is returned. -/
noncomputable def compute_gradient_penalty {n : ℕ} (D : Image → ℝ) (alpha : Fin n → ℝ)
    (real_samples fake_samples : Fin n → Image) : ℝ :=
  mean (fun i =>
    (Real.sqrt (∑ j, (batchGrad (fun x => ∑ k, D (x k))
        (interpolates alpha real_samples fake_samples) i (imgEquiv.symm j)) ^ 2) - 1) ^ 2)

/-- The gradient of the critic `D` with respect to its own input at a
single sample `v`, taken coordinatewise. -/
noncomputable def sampleGrad (D : Image → ℝ) (v : Image) : Image :=
  fun idx => deriv (fun t => D (fun idx' => if idx' = idx then t else v idx')) (v idx)

/-- The gradient-penalty value as the claim words it: the batch mean of
`(norm2 (grad_xhat D xhat) - 1) ^ 2`, where `xhat` is the per-sample
interpolation and the gradient is taken with respect to `xhat` itself. -/
noncomputable def gradPenaltySpec {n : ℕ} (D : Image → ℝ) (alpha : Fin n → ℝ)
    (real_samples fake_samples : Fin n → Image) : ℝ :=
  mean (fun i =>
    (Real.sqrt (∑ idx : ImgIdx, (sampleGrad D
        (fun idx0 => alpha i * real_samples i idx0 + (1 - alpha i) * fake_samples i idx0)
        idx) ^ 2) - 1) ^ 2)

/-- The batched gradient of the summed critic outputs decomposes into
per-sample input gradients: coordinate `(i, idx)` only feeds sample
`i`'s critic output, the other summands being constant in it. -/
theorem batchGrad_sum {n : ℕ} (D : Image → ℝ) (x : Fin n → Image) (i : Fin n)
    (idx : ImgIdx) :
    batchGrad (fun y => ∑ k, D (y k)) x i idx = sampleGrad D (x i) idx := by
  unfold batchGrad sampleGrad
  have hfun : (fun t => ∑ k, D (updAt x i idx t k)) =
      fun t => D (fun idx' => if idx' = idx then t else x i idx') +
        ∑ k ∈ Finset.univ.erase i, D (x k) := by
    funext t
    rw [← Finset.add_sum_erase _ (fun k => D (updAt x i idx t k)) (Finset.mem_univ i)]
    congr 1
    · congr 1
      funext idx'
      simp [updAt]
    · apply Finset.sum_congr rfl
      intro k hk
      have hki : k ≠ i := Finset.ne_of_mem_erase hk
      congr 1
      funext idx'
      simp [updAt, hki]
  rw [hfun, deriv_add_const]

/-- C1: `compute_gradient_penalty(D, real, fake)` returns the batch mean
of `(norm2 (grad_xhat D xhat) - 1) ^ 2`, where each `xhat` is the
per-sample interpolation `alpha * real + (1 - alpha) * fake` with one
weight `alpha ∈ [0, 1]` shared across all pixels of that sample, and the
gradient is taken with respect to the interpolated input itself. -/
theorem compute_gradient_penalty_eq_spec {n : ℕ} (D : Image → ℝ) (alpha : Fin n → ℝ)
    (real_samples fake_samples : Fin n → Image) (hn : 1 ≤ n)
    (halpha : ∀ i, 0 ≤ alpha i ∧ alpha i ≤ 1) :
    compute_gradient_penalty D alpha real_samples fake_samples =
      gradPenaltySpec D alpha real_samples fake_samples := by
  unfold compute_gradient_penalty gradPenaltySpec mean
  refine congrArg (fun s : ℝ => s / (n : ℝ)) ?_
  refine Finset.sum_congr rfl fun i _ => ?_
  refine congrArg (fun s : ℝ => (Real.sqrt s - 1) ^ 2) ?_
  rw [← Equiv.sum_comp imgEquiv.symm (fun idx => (sampleGrad D
      (fun idx0 => alpha i * real_samples i idx0 + (1 - alpha i) * fake_samples i idx0)
      idx) ^ 2)]
  refine Finset.sum_congr rfl fun j _ => ?_
  rw [batchGrad_sum]
  rfl

/-- Witness for C1 at a concrete one-sample batch. -/
theorem compute_gradient_penalty_eq_spec_witness :
    compute_gradient_penalty (fun _ => (0 : ℝ)) (fun _ : Fin 1 => 1 / 2)
        (fun _ _ => 0) (fun _ _ => 0) =
      gradPenaltySpec (fun _ => (0 : ℝ)) (fun _ : Fin 1 => 1 / 2)
        (fun _ _ => 0) (fun _ _ => 0) :=
  compute_gradient_penalty_eq_spec _ _ _ _ (by norm_num) (fun _ => by norm_num)

/-- The critic loss of one batch, as a function of the critic parameters
`θ` (the function of which `d_loss.backward()` takes the gradient):
`-mean(D(real)) + mean(D(fake)) + lambda_gp * gp`. -/
noncomputable def d_lossAt {n : ℕ} (real_imgs fake_imgs : Fin n → Image)
    (alpha : Fin n → ℝ) (θ : DiscParams) : ℝ :=
  -mean (fun k => Dscore θ (real_imgs k)) + mean (fun k => Dscore θ (fake_imgs k)) +
    lambda_gp * compute_gradient_penalty (Dscore θ) alpha real_imgs fake_imgs

/-- C9: `compute_gradient_penalty` is a mean of squares, hence
non-negative, for every critic, every batch pair and every draw of the
interpolation weights; consequently the gradient-penalty term never
decreases the critic loss `d_loss`. -/
theorem gradient_penalty_nonneg {n : ℕ} (D : Image → ℝ) (alpha : Fin n → ℝ)
    (real_samples fake_samples : Fin n → Image) :
    0 ≤ compute_gradient_penalty D alpha real_samples fake_samples ∧
    ∀ θ : DiscParams,
      -mean (fun k => Dscore θ (real_samples k)) + mean (fun k => Dscore θ (fake_samples k)) ≤
        d_lossAt real_samples fake_samples alpha θ := by
  have hgp : ∀ D' : Image → ℝ,
      0 ≤ compute_gradient_penalty D' alpha real_samples fake_samples := by
    intro D'
    unfold compute_gradient_penalty mean
    positivity
  refine ⟨hgp D, fun θ => ?_⟩
  have h10 : (0 : ℝ) ≤ lambda_gp := by norm_num [lambda_gp]
  have := mul_nonneg h10 (hgp (Dscore θ))
  unfold d_lossAt
  linarith

/-- Parameters of the notebook's `Generator(z_dim, mnist_dim)`: linear
weights and biases of the five `nn.Linear` layers and the affine
parameters (`γ`, `β`) of the three `nn.BatchNorm1d` layers. -/
structure GenParams where
  W1 : Fin 128 → Fin z_dim → ℝ
  b1 : Vec 128
  W2 : Fin 256 → Fin 128 → ℝ
  b2 : Vec 256
  γ2 : Vec 256
  β2 : Vec 256
  W3 : Fin 512 → Fin 256 → ℝ
  b3 : Vec 512
  γ3 : Vec 512
  β3 : Vec 512
  W4 : Fin 1024 → Fin 512 → ℝ
  b4 : Vec 1024
  γ4 : Vec 1024
  β4 : Vec 1024
  W5 : Fin (28 * 28) → Fin 1024 → ℝ
  b5 : Vec (28 * 28)

namespace Generator

/-- The notebook's `block(in_feat, out_feat, normalize)` applied to a
batch: `nn.Linear`, then `nn.BatchNorm1d(out_feat, 0.8)` when
`normalize` holds (`bn` carries its `γ`, `β`), then `nn.LeakyReLU(0.2)`. -/
noncomputable def block {n i o : ℕ} (W : Fin o → Fin i → ℝ) (b : Vec o)
    (bn : Option (Vec o × Vec o)) (x : Fin n → Vec i) : Fin n → Vec o :=
  let lin : Fin n → Vec o := fun s => linear W b (x s)
  match bn with
  | some (γ, β) => fun s r => leakyReLU 0.2 (batchNorm 0.8 γ β lin s r)
  | none => fun s r => leakyReLU 0.2 (lin s r)

/-- `Generator.forward` on a latent batch `z` of shape `(n, 100)`:
the notebook's `nn.Sequential` of `block(g_input_dim, 128,
normalize=False)`, `block(128, 256)`, `block(256, 512)`,
`block(512, 1024)`, `nn.Linear(1024, g_output_dim)`, `nn.Tanh`,
followed by `image.view(image.size(0), 1, 28, 28)`. -/
noncomputable def forward {n : ℕ} (p : GenParams) (z : Fin n → Vec z_dim) :
    Fin n → Image :=
  let h1 := block p.W1 p.b1 none z
  let h2 := block p.W2 p.b2 (some (p.γ2, p.β2)) h1
  let h3 := block p.W3 p.b3 (some (p.γ3, p.β3)) h2
  let h4 := block p.W4 p.b4 (some (p.γ4, p.β4)) h3
  fun s idx => Real.tanh (linear p.W5 p.b5 (h4 s) (imgEquiv idx))

end Generator

/-- The generator pipeline as the claim words it: a linear+LeakyReLU
block 100→128 without batch-norm, three linear+batch-norm+LeakyReLU
blocks 128→256, 256→512, 512→1024, a final linear layer 1024→784 and a
`Tanh`, reshaped to one `(1, 28, 28)` image per sample. -/
noncomputable def generatorSpec {n : ℕ} (p : GenParams) (z : Fin n → Vec z_dim) :
    Fin n → Image :=
  let l1 : Fin n → Vec 128 := fun s r => leakyReLU 0.2 (linear p.W1 p.b1 (z s) r)
  let l2 : Fin n → Vec 256 := fun s r =>
    leakyReLU 0.2 (batchNorm 0.8 p.γ2 p.β2 (fun t => linear p.W2 p.b2 (l1 t)) s r)
  let l3 : Fin n → Vec 512 := fun s r =>
    leakyReLU 0.2 (batchNorm 0.8 p.γ3 p.β3 (fun t => linear p.W3 p.b3 (l2 t)) s r)
  let l4 : Fin n → Vec 1024 := fun s r =>
    leakyReLU 0.2 (batchNorm 0.8 p.γ4 p.β4 (fun t => linear p.W4 p.b4 (l3 t)) s r)
  fun s idx => Real.tanh (linear p.W5 p.b5 (l4 s) (imgEquiv idx))

/-- C7: `Generator.forward` is exactly the composition of the pre-built
layers the claim lists — a 100→128 linear+LeakyReLU block without
batch-norm, three linear+batch-norm+LeakyReLU blocks 128→256, 256→512,
512→1024, a final 1024→784 linear layer and a `Tanh` — and (by its
type) maps every latent batch of shape `(n, 100)` to an image batch of
shape `(n, 1, 28, 28)`. -/
theorem generator_forward_eq_layer_pipeline {n : ℕ} (p : GenParams)
    (z : Fin n → Vec z_dim) :
    Generator.forward p z = generatorSpec p z :=
  rfl

/-- The real hyperbolic tangent lies strictly between -1 and 1. -/
theorem tanh_mem_Ioo (x : ℝ) : -1 < Real.tanh x ∧ Real.tanh x < 1 := by
  have ha : 0 < Real.exp x := Real.exp_pos x
  have hb : 0 < Real.exp (-x) := Real.exp_pos (-x)
  have hden : 0 < Real.exp x + Real.exp (-x) := by linarith
  have htanh : Real.tanh x = (Real.exp x - Real.exp (-x)) / (Real.exp x + Real.exp (-x)) := by
    rw [Real.tanh_eq_sinh_div_cosh, Real.sinh_eq, Real.cosh_eq]
    field_simp
  rw [htanh]
  constructor
  · rw [lt_div_iff hden]
    linarith
  · rw [div_lt_one hden]
    linarith

/-- `transforms.Normalize([0.5], [0.5])` on one pixel value:
`(x - 0.5) / 0.5`. -/
noncomputable def normalizeT (x : ℝ) : ℝ := (x - 0.5) / 0.5

/-- All-zero generator parameters, used as a concrete instance. -/
def zeroGen : GenParams where
  W1 := fun _ _ => 0
  b1 := fun _ => 0
  W2 := fun _ _ => 0
  b2 := fun _ => 0
  γ2 := fun _ => 0
  β2 := fun _ => 0
  W3 := fun _ _ => 0
  b3 := fun _ => 0
  γ3 := fun _ => 0
  β3 := fun _ => 0
  W4 := fun _ _ => 0
  b4 := fun _ => 0
  γ4 := fun _ => 0
  β4 := fun _ => 0
  W5 := fun _ _ => 0
  b5 := fun _ => 0

/-- A concrete all-zero latent batch with one sample. -/
def zOne : Fin 1 → Vec z_dim := fun _ _ => 0

/-- C10: every pixel the generator produces lies strictly inside
`(-1, 1)` (the final layer is `Tanh`), and `Normalize([0.5], [0.5])`
maps every real pixel value in `[0, 1]` into the same range `[-1, 1]`. -/
theorem generator_output_range :
    (∀ {n : ℕ} (p : GenParams) (z : Fin n → Vec z_dim) (s : Fin n) (idx : ImgIdx),
      -1 < Generator.forward p z s idx ∧ Generator.forward p z s idx < 1) ∧
    (∀ x : ℝ, 0 ≤ x → x ≤ 1 → -1 ≤ normalizeT x ∧ normalizeT x ≤ 1) := by
  constructor
  · intro n p z s idx
    exact tanh_mem_Ioo _
  · intro x hx0 hx1
    have hval : normalizeT x = 2 * x - 1 := by
      unfold normalizeT
      ring
    rw [hval]
    constructor <;> linarith

/-- Witness for C10 at a concrete generator batch and pixel value. -/
theorem generator_output_range_witness :
    (-1 < Generator.forward zeroGen zOne 0 (0, 0, 0) ∧
      Generator.forward zeroGen zOne 0 (0, 0, 0) < 1) ∧
    (-1 ≤ normalizeT (1 / 2) ∧ normalizeT (1 / 2) ≤ 1) :=
  ⟨generator_output_range.1 zeroGen zOne 0 (0, 0, 0),
    generator_output_range.2 (1 / 2) (by norm_num) (by norm_num)⟩

/-- Optimizer learning rate from the notebook: `lr = 0.0002`. -/
noncomputable def lr : ℝ := 0.0002

/-- First Adam momentum coefficient from the notebook: `b1 = 0.5`. -/
noncomputable def b1 : ℝ := 0.5

/-- Second Adam momentum coefficient from the notebook: `b2 = 0.999`. -/
noncomputable def b2 : ℝ := 0.999

/-- Critic steps per generator step from the notebook: `n_critic = 5`. -/
def n_critic : ℕ := 5

/-- `batch_size = 100` in the notebook's MNIST data loader. -/
def batch_size : ℕ := 100

/-- The hyperparameters a `torch.optim.Adam` instance is constructed
with: learning rate and the two momentum coefficients `betas`. -/
structure AdamCfg where
  lr : ℝ
  β1 : ℝ
  β2 : ℝ

/-- `optimizer_G = torch.optim.Adam(G.parameters(), lr=lr, betas=(b1, b2))`. -/
noncomputable def optimizer_G : AdamCfg := ⟨lr, b1, b2⟩

/-- `optimizer_D = torch.optim.Adam(D.parameters(), lr=lr, betas=(b1, b2))`. -/
noncomputable def optimizer_D : AdamCfg := ⟨lr, b1, b2⟩

/-- The pre-built framework pieces the training loop calls but does not
implement: reverse-mode parameter gradients of a scalar loss
(`loss.backward()`) and the Adam update (`optimizer.step()`), the
latter taking a configuration, the optimizer's internal state (of
abstract type `SG`/`SD`), the current parameters and the gradients, and
returning new parameters and a new internal state. -/
structure Autodiff (SG SD : Type) where
  gradG : (GenParams → ℝ) → GenParams → GenParams
  gradD : (DiscParams → ℝ) → DiscParams → DiscParams
  adamG : AdamCfg → SG → GenParams → GenParams → GenParams × SG
  adamD : AdamCfg → SD → DiscParams → DiscParams → DiscParams × SD

/-- The mutable state of the training loop: the two networks' parameters
and the two optimizers' internal states. -/
structure TrainState (SG SD : Type) where
  G : GenParams
  D : DiscParams
  sg : SG
  sd : SD

/-- The generator loss of one batch as a function of the generator
parameters `θG` (the function `g_loss.backward()` differentiates), with
the critic parameters held fixed: `-torch.mean(D(G(z)))`. -/
noncomputable def g_lossAt {n : ℕ} (θD : DiscParams) (z : Fin n → Vec z_dim)
    (θG : GenParams) : ℝ :=
  -mean (fun k => Dscore θD (Generator.forward θG z k))

/-- The critic update of one minibatch (the `Train Discriminator`
section): `fake_imgs = G(z).detach()` (same values as `G(z)`; the
detach only cuts the autograd graph so that `d_loss.backward()` sends
no gradient into `G`), the gradient penalty on
`real_imgs.data, fake_imgs.data`, the adversarial loss `d_loss`, then
`d_loss.backward()` and `optimizer_D.step()`. Returns the new training
state and the value of `d_loss`. -/
noncomputable def criticPhase {SG SD : Type} {n : ℕ} (ad : Autodiff SG SD)
    (imgs : Fin n → Image) (z : Fin n → Vec z_dim) (alpha : Fin n → ℝ)
    (s : TrainState SG SD) : TrainState SG SD × ℝ :=
  let real_imgs := imgs
  let fake_imgs := Generator.forward s.G z
  let lossF := d_lossAt real_imgs fake_imgs alpha
  let stepD := ad.adamD optimizer_D s.sd s.D (ad.gradD lossF s.D)
  (⟨s.G, stepD.1, s.sg, stepD.2⟩, lossF s.D)

/-- The generator update of one minibatch (the `Train Generator`
section), run only when `i % n_critic == 0`: `gen_imgs = G(z)` on the
same latent batch, `g_loss = -torch.mean(D(gen_imgs))` against the
already-updated critic, then `g_loss.backward()` and
`optimizer_G.step()`. Returns the new training state and `g_loss`. -/
noncomputable def generatorPhase {SG SD : Type} {n : ℕ} (ad : Autodiff SG SD)
    (z : Fin n → Vec z_dim) (s : TrainState SG SD) : TrainState SG SD × ℝ :=
  let lossF := g_lossAt s.D z
  let stepG := ad.adamG optimizer_G s.sg s.G (ad.gradG lossF s.G)
  (⟨stepG.1, s.D, stepG.2, s.sd⟩, lossF s.G)

/-- One iteration of the notebook's inner training loop on the minibatch
with 0-based index `i` within its epoch: the critic update always runs;
the generator update runs exactly when `i % n_critic == 0`. Returns the
new state, the value of `d_loss`, and `some g_loss` when the generator
was trained on this minibatch. -/
noncomputable def trainBatch {SG SD : Type} {n : ℕ} (ad : Autodiff SG SD) (i : ℕ)
    (imgs : Fin n → Image) (z : Fin n → Vec z_dim) (alpha : Fin n → ℝ)
    (s : TrainState SG SD) : TrainState SG SD × ℝ × Option ℝ :=
  let c := criticPhase ad imgs z alpha s
  if i % n_critic = 0 then
    let g := generatorPhase ad z c.1
    (g.1, c.2, some g.2)
  else
    (c.1, c.2, none)

/-- C2: on every minibatch, the critic loss `d_loss` computed before
`d_loss.backward()` equals
`-mean(D(real_imgs)) + mean(D(fake_imgs)) + lambda_gp * gp` with
`lambda_gp = 10`, where `fake_imgs = G(z).detach()` has the same values
as `G(z)` and `gp` is `compute_gradient_penalty` on the real and fake
batches, all evaluated at the critic parameters current at the start of
the minibatch. -/
theorem critic_loss_formula {SG SD : Type} {n : ℕ} (ad : Autodiff SG SD) (i : ℕ)
    (imgs : Fin n → Image) (z : Fin n → Vec z_dim) (alpha : Fin n → ℝ)
    (s : TrainState SG SD) :
    (trainBatch ad i imgs z alpha s).2.1 =
      -mean (fun k => Dscore s.D (imgs k)) +
        mean (fun k => Dscore s.D (Generator.forward s.G z k)) +
        lambda_gp * compute_gradient_penalty (Dscore s.D) alpha imgs
          (Generator.forward s.G z) ∧
    lambda_gp = 10 := by
  constructor
  · unfold trainBatch
    split <;> rfl
  · rfl

/-- C4: on every minibatch with `i % n_critic == 0`, the generator loss
`g_loss` computed before `g_loss.backward()` equals `-mean(D(G(z)))`:
the mean critic score (at the critic parameters current at that point,
i.e. after this minibatch's critic update, which the final state also
carries) of the images generated from the latent batch `z`, negated —
with no gradient-penalty term. -/
theorem generator_loss_formula {SG SD : Type} {n : ℕ} (ad : Autodiff SG SD) (i : ℕ)
    (imgs : Fin n → Image) (z : Fin n → Vec z_dim) (alpha : Fin n → ℝ)
    (s : TrainState SG SD) (hi : i % n_critic = 0) :
    (trainBatch ad i imgs z alpha s).2.2 =
      some (-mean (fun k =>
        Dscore (trainBatch ad i imgs z alpha s).1.D (Generator.forward s.G z k))) := by
  unfold trainBatch
  rw [if_pos hi]
  rfl

/-- A trivial concrete instantiation of the framework oracles: zero-less
gradients are irrelevant here because its Adam step returns the
parameters unchanged. -/
noncomputable def adTrivial : Autodiff Unit Unit where
  gradG := fun _ θ => θ
  gradD := fun _ θ => θ
  adamG := fun _ st θ _ => (θ, st)
  adamD := fun _ st θ _ => (θ, st)

/-- A concrete initial training state with all-zero parameters. -/
noncomputable def s0 : TrainState Unit Unit := ⟨zeroGen, zeroDisc, (), ()⟩

/-- A concrete one-sample batch of all-zero images. -/
def imgs0 : Fin 1 → Image := fun _ _ => 0

/-- A concrete draw of interpolation weights. -/
noncomputable def alpha0 : Fin 1 → ℝ := fun _ => 1 / 2

/-- Witness for C4 on a concrete minibatch with `i = 0`. -/
theorem generator_loss_formula_witness :
    (trainBatch adTrivial 0 imgs0 zOne alpha0 s0).2.2 =
      some (-mean (fun k =>
        Dscore (trainBatch adTrivial 0 imgs0 zOne alpha0 s0).1.D
          (Generator.forward s0.G zOne k))) :=
  generator_loss_formula adTrivial 0 imgs0 zOne alpha0 s0 (by decide)

/-- C6: both optimizers are the pre-built Adam with learning rate 0.0002
and betas (0.5, 0.999), and in each training iteration the critic's and
the generator's parameters change exclusively through these two Adam
steps — the critic's always, the generator's only on `i % n_critic == 0`
minibatches, and otherwise not at all (in particular no weight clipping
or any other update rule is applied). -/
theorem adam_only_parameter_updates :
    (optimizer_G.lr = 0.0002 ∧ optimizer_G.β1 = 0.5 ∧ optimizer_G.β2 = 0.999) ∧
    (optimizer_D.lr = 0.0002 ∧ optimizer_D.β1 = 0.5 ∧ optimizer_D.β2 = 0.999) ∧
    ∀ {SG SD : Type} {n : ℕ} (ad : Autodiff SG SD) (i : ℕ) (imgs : Fin n → Image)
      (z : Fin n → Vec z_dim) (alpha : Fin n → ℝ) (s : TrainState SG SD),
      (trainBatch ad i imgs z alpha s).1.D =
        (ad.adamD optimizer_D s.sd s.D
          (ad.gradD (d_lossAt imgs (Generator.forward s.G z) alpha) s.D)).1 ∧
      (trainBatch ad i imgs z alpha s).1.G =
        (if i % n_critic = 0 then
          (ad.adamG optimizer_G s.sg s.G (ad.gradG
            (g_lossAt (ad.adamD optimizer_D s.sd s.D
              (ad.gradD (d_lossAt imgs (Generator.forward s.G z) alpha) s.D)).1
              z) s.G)).1
        else s.G) := by
  refine ⟨⟨rfl, rfl, rfl⟩, ⟨rfl, rfl, rfl⟩, ?_⟩
  intro SG SD n ad i imgs z alpha s
  by_cases hi : i % n_critic = 0
  · constructor
    · unfold trainBatch
      rw [if_pos hi]
      rfl
    · unfold trainBatch
      simp only [if_pos hi]
      rfl
  · constructor
    · unfold trainBatch
      rw [if_neg hi]
      rfl
    · unfold trainBatch
      simp only [if_neg hi]
      rfl

/-- C8: each training phase leaves the other network untouched — the
critic update changes neither the generator's parameters nor its
optimizer state (the fake images enter through `G(z).detach()`, and
`optimizer_D.step()` only owns `D.parameters()`), and the generator
update changes neither the critic's parameters nor its optimizer state. -/
theorem training_phases_frame :
    ∀ {SG SD : Type} {n : ℕ} (ad : Autodiff SG SD) (imgs : Fin n → Image)
      (z : Fin n → Vec z_dim) (alpha : Fin n → ℝ) (s : TrainState SG SD),
      (criticPhase ad imgs z alpha s).1.G = s.G ∧
      (criticPhase ad imgs z alpha s).1.sg = s.sg ∧
      (generatorPhase ad z s).1.D = s.D ∧
      (generatorPhase ad z s).1.sd = s.sd := by
  intro SG SD n ad imgs z alpha s
  exact ⟨rfl, rfl, rfl, rfl⟩

/-- The 0-based index within its epoch of global minibatch `t`, when
every epoch enumerates `B` minibatches: the loop variable `i` of
`for i, (imgs, _) in enumerate(train_loader)`, which restarts at 0 each
epoch. -/
def batchIndex (B t : ℕ) : ℕ := t % B

/-- Whether the generator is trained on global minibatch `t`: the
notebook's guard `i % n_critic == 0` on the within-epoch index. -/
def genStep (B t : ℕ) : Bool := batchIndex B t % n_critic == 0

/-- The number of critic updates performed through global minibatch `t`
(0-based): `optimizer_D.step()` runs unconditionally on every minibatch
before the generator guard, so it is `t + 1`. -/
def criticUpdates (t : ℕ) : ℕ := t + 1

/-- C3 counterexample: on the very first minibatch (epoch 0, `i = 0`,
global step 0) the generator is updated — `trainBatch` runs the
generator phase and returns a generator loss — although only
`criticUpdates 0 = 1` critic update has ever occurred and `1 ≠ n_critic`;
so the first generator update is not preceded by 5 critic updates. -/
theorem first_generator_update_after_one_critic_update :
    genStep 600 0 = true ∧
    ((trainBatch adTrivial (batchIndex 600 0) imgs0 zOne alpha0 s0).2.2).isSome = true ∧
    criticUpdates 0 = 1 ∧ 1 ≠ n_critic := by
  refine ⟨by decide, ?_, rfl, by decide⟩
  unfold trainBatch batchIndex
  rw [if_pos (by decide)]
  rfl

/-- C3 amended: the critic is trained on every minibatch (its parameters
go through the Adam step on every `trainBatch`), and the generator is
trained exactly on the minibatches whose 0-based within-epoch index `i`
satisfies `i % n_critic = 0`. When the number `B` of minibatches per
epoch is a positive multiple of `n_critic` (with the notebook's loader,
`B = 60000 / batch_size = 600`), the generator-update steps are exactly
the global steps divisible by 5, so consecutive generator updates are
separated by exactly `n_critic = 5` critic updates; the first generator
update of the run, however, happens on the very first minibatch, after a
single critic update. -/
theorem generator_update_schedule (B t : ℕ) (hB : 0 < B) (hd : n_critic ∣ B) :
    (∀ {SG SD : Type} {n : ℕ} (ad : Autodiff SG SD) (imgs : Fin n → Image)
        (z : Fin n → Vec z_dim) (alpha : Fin n → ℝ) (s : TrainState SG SD),
      (trainBatch ad (batchIndex B t) imgs z alpha s).1.D =
        (ad.adamD optimizer_D s.sd s.D
          (ad.gradD (d_lossAt imgs (Generator.forward s.G z) alpha) s.D)).1 ∧
      ((trainBatch ad (batchIndex B t) imgs z alpha s).2.2).isSome = genStep B t) ∧
    (genStep B t = true ↔ t % n_critic = 0) ∧
    (genStep B t = true →
      genStep B (t + n_critic) = true ∧
      ∀ u, t < u → u < t + n_critic → genStep B u = false) := by
  have hmod : ∀ v : ℕ, batchIndex B v % n_critic = v % n_critic := fun v =>
    Nat.mod_mod_of_dvd v hd
  refine ⟨?_, ?_, ?_⟩
  · intro SG SD n ad imgs z alpha s
    constructor
    · by_cases h : batchIndex B t % n_critic = 0
      · unfold trainBatch
        rw [if_pos h]
        rfl
      · unfold trainBatch
        rw [if_neg h]
        rfl
    · by_cases h : batchIndex B t % n_critic = 0
      · unfold trainBatch
        rw [if_pos h]
        unfold genStep
        simp [h]
      · unfold trainBatch
        rw [if_neg h]
        unfold genStep
        simp [h]
  · unfold genStep
    rw [hmod t]
    simp
  · intro hgen
    have ht : t % n_critic = 0 := by
      unfold genStep at hgen
      rw [hmod t] at hgen
      simpa using hgen
    have h5 : n_critic = 5 := rfl
    constructor
    · unfold genStep
      rw [hmod (t + n_critic)]
      simp only [h5] at ht ⊢
      simp only [beq_iff_eq]
      omega
    · intro u hu1 hu2
      unfold genStep
      rw [hmod u]
      simp only [h5] at ht hu2 ⊢
      simp only [beq_eq_false_iff_ne, ne_eq]
      omega

/-- Witness for C3's amended schedule at `B = 600`, `t = 5`. -/
theorem generator_update_schedule_witness :
    genStep 600 5 = true ↔ 5 % n_critic = 0 :=
  (generator_update_schedule 600 5 (by norm_num) (by decide)).2.1
